import Mathlib

/-!
# Verification of the DHIS2 data-service core

Shallow embedding of the job-pipeline core of the `dhis2-public-portal`
data service: the worker runtime's consume callback with its retry
accounting, the mapping engine (`processDataItems` / `expandDataElement`),
the data upload/delete handlers, the validation diff, and the period
expansion of the job planner.  Each section names the source file it
embeds.  Theorems at the end settle the specification claims.
-/

/-! ## Worker runtime

Embedding of the consume callback installed by `setupConsumer`
(`src/unnamed/part_006`, lines 101-236).  The broker channel, logging and
the header mutation on the raw message are I/O effects that do not affect
ack/nack routing and are not modelled; the ack/nack decision and the
in-process `retryCounts` map are modelled exactly.
-/

namespace Worker

/-- The in-process retry table `retryCounts : Map<string, number>` of
`src/unnamed/part_006` line 17, as an association list with JS `Map`
semantics (unique keys, insertion order). -/
abbrev RetryCounts := List (String × Nat)

/-- `retryCounts.get(k)` (absent key gives `undefined`, modelled `none`). -/
def mapGet (st : RetryCounts) (k : String) : Option Nat :=
  (st.find? (fun e => e.1 = k)).map (fun e => e.2)

/-- `retryCounts.set(k, v)`: overwrite in place when the key exists,
append otherwise (JS `Map.set` keeps the original insertion position). -/
def mapSet (st : RetryCounts) (k : String) (v : Nat) : RetryCounts :=
  if (st.find? (fun e => e.1 = k)).isSome then
    st.map (fun e => if e.1 = k then (k, v) else e)
  else
    st ++ [(k, v)]

/-- `retryCounts.delete(k)`. -/
def mapDelete (st : RetryCounts) (k : String) : RetryCounts :=
  st.filter (fun e => e.1 ≠ k)

/-- `MAX_RETRIES` from `src/unnamed/part_006` line 16 (the spec's
`IMMEDIATE_REQUEUE_LIMIT`). -/
def MAX_RETRIES : Nat := 2

/-- The `config` sub-object of a queue message (`messageContent.config`);
its `id` field may itself be absent. -/
structure ConfigRef where
  id : Option String
deriving DecidableEq

/-- A parsed queue-message body.  `none` models an absent (`undefined`)
field.  Fields cover the shapes published by the routes; the
`requestedAt` timestamp is not modelled (never read by the worker). -/
structure MessageContent where
  mainConfigId : Option String := none
  configId : Option String := none
  config : Option ConfigRef := none
  filename : Option String := none
  periodId : Option String := none
  metadataSource : Option String := none
  selectedVisualizations : List String := []
  selectedMaps : List String := []
  selectedDashboards : List String := []
  totalItems : Option Nat := none
deriving DecidableEq

/-- The jobId computation of `src/unnamed/part_006` line 144:
`"${mainConfigId ?? configId}-${config.id ?? filename ?? 'metadata'}-${periodId ?? handlerType}"`.
Reading `.id` of an absent `config` throws a `TypeError` in JS; that is
the `none` result (the expression sits before the `try` block). -/
def jobIdOf (m : MessageContent) (handlerType : String) : Option String :=
  match m.config with
  | none => none
  | some cfg =>
      some ((m.mainConfigId.getD (m.configId.getD "undefined")) ++ "-" ++
            (cfg.id.getD (m.filename.getD "metadata")) ++ "-" ++
            (m.periodId.getD handlerType))

/-- The keys of `handlerMap` (`src/unnamed/part_006` lines 20-50). -/
def handlerTypes : List String :=
  ["dataDownload", "dataDeletion", "dataUpload", "metadataDownload", "metadataUpload"]

/-- Errors thrown by a handler, as observed by the consume callback:
axios HTTP errors carry an optional response status and error code; any
other thrown value carries a name and message. -/
inductive WorkerError where
  | axios (status : Option Nat) (code : Option String)
  | generic (name message : String)
deriving DecidableEq

/-- The spec's `UpstreamFatal` error class: an HTTP 4xx response other
than 409. -/
def isUpstreamFatal : WorkerError → Bool
  | .axios (some s) _ => decide (400 ≤ s ∧ s < 500 ∧ s ≠ 409)
  | _ => false

/-- The result of one handler invocation (the `await handler(...)` call):
it either returns or throws. -/
inductive HandlerOutcome where
  | success
  | failure (e : WorkerError)
deriving DecidableEq

/-- What the consume callback did with the broker message. -/
inductive BrokerAction where
  | ack
  | nack (requeue : Bool)
  | crashTypeError
deriving DecidableEq

/-- Outcome of one consume-callback invocation: broker action plus the
new `retryCounts` table. -/
structure ConsumeResult where
  action : BrokerAction
  retryCounts : RetryCounts
deriving DecidableEq

/-- The consume callback of `src/unnamed/part_006` lines 141-212.
Computes the jobId (throwing before the `try` when `config` is absent),
reads `currentRetries = retryCounts.get(jobId) || 0` (inlined below),
dispatches the handler (unknown handler types are acked and discarded),
acks on success, and on failure requeues while
`currentRetries < MAX_RETRIES` else dead-letters. -/
def consumeMessage (st : RetryCounts) (handlerType : String) (m : MessageContent)
    (outcome : HandlerOutcome) : ConsumeResult :=
  match jobIdOf m handlerType with
  | none => ⟨.crashTypeError, st⟩
  | some jobId =>
    if handlerType ∈ handlerTypes then
      match outcome with
      | .success => ⟨.ack, mapDelete st jobId⟩
      | .failure _ =>
          if (mapGet st jobId).getD 0 < MAX_RETRIES then
            ⟨.nack true, mapSet st jobId ((mapGet st jobId).getD 0 + 1)⟩
          else
            ⟨.nack false, mapDelete st jobId⟩
    else
      ⟨.ack, mapDelete st jobId⟩

/-- One delivery observed by the worker: which queue (handler type) it
came from, the parsed body, and how the handler call ended. -/
structure WorkerEvent where
  handlerType : String
  content : MessageContent
  outcome : HandlerOutcome

/-- State transition of the retry table for one delivery. -/
def workerStep (st : RetryCounts) (e : WorkerEvent) : RetryCounts :=
  (consumeMessage st e.handlerType e.content e.outcome).retryCounts

/-- The retry table after a sequence of deliveries, starting from the
empty table the module initialises. -/
def runWorker (evs : List WorkerEvent) : RetryCounts :=
  evs.foldl workerStep []

theorem mem_mapSet {st : RetryCounts} {k : String} {v : Nat} :
    ∀ p ∈ mapSet st k v, p ∈ st ∨ p.2 = v := by
  intro p hp
  unfold mapSet at hp
  by_cases h : (st.find? (fun e => e.1 = k)).isSome
  · rw [if_pos h] at hp
    rw [List.mem_map] at hp
    obtain ⟨e, he, hfe⟩ := hp
    by_cases hek : e.1 = k
    · rw [if_pos hek] at hfe
      right
      rw [← hfe]
    · rw [if_neg hek] at hfe
      left
      rw [← hfe]
      exact he
  · rw [if_neg h] at hp
    rw [List.mem_append] at hp
    rcases hp with h1 | h1
    · exact Or.inl h1
    · right
      rw [List.mem_singleton] at h1
      rw [h1]

theorem mem_mapDelete {st : RetryCounts} {k : String} :
    ∀ p ∈ mapDelete st k, p ∈ st := by
  intro p hp
  exact List.mem_of_mem_filter hp

theorem workerStep_counts_le {st : RetryCounts} (e : WorkerEvent)
    (h : ∀ p ∈ st, p.2 ≤ MAX_RETRIES) :
    ∀ p ∈ workerStep st e, p.2 ≤ MAX_RETRIES := by
  obtain ⟨ht, mc, oc⟩ := e
  intro p hp
  unfold workerStep consumeMessage at hp
  rcases hj : jobIdOf mc ht with _ | jobId
  · rw [hj] at hp
    exact h p hp
  · rw [hj] at hp
    dsimp only at hp
    by_cases hk : ht ∈ handlerTypes
    · rw [if_pos hk] at hp
      rcases oc with _ | err
      · exact h p (mem_mapDelete p hp)
      · by_cases hc : (mapGet st jobId).getD 0 < MAX_RETRIES
        · rw [if_pos hc] at hp
          rcases mem_mapSet p hp with h1 | h1
          · exact h p h1
          · rw [h1]
            unfold MAX_RETRIES at hc ⊢
            omega
        · rw [if_neg hc] at hp
          exact h p (mem_mapDelete p hp)
    · rw [if_neg hk] at hp
      exact h p (mem_mapDelete p hp)

theorem runWorker_counts_le (evs : List WorkerEvent) :
    ∀ p ∈ runWorker evs, p.2 ≤ MAX_RETRIES := by
  unfold runWorker
  have key : ∀ (l : List WorkerEvent) (st : RetryCounts),
      (∀ p ∈ st, p.2 ≤ MAX_RETRIES) →
      ∀ p ∈ l.foldl workerStep st, p.2 ≤ MAX_RETRIES := by
    intro l
    induction l with
    | nil =>
        intro st h
        simpa using h
    | cons e rest ih =>
        intro st h
        exact ih (workerStep st e) (workerStep_counts_le e h)
  exact key evs [] (by simp)

theorem find?_update_of_isSome (k : String) (v : Nat) :
    ∀ st : RetryCounts, (st.find? (fun e => e.1 = k)).isSome →
      (st.map (fun e => if e.1 = k then (k, v) else e)).find? (fun e => e.1 = k)
        = some (k, v) := by
  intro st
  induction st with
  | nil =>
      intro h
      simp at h
  | cons a rest ih =>
      intro h
      rw [List.map_cons]
      by_cases ha : a.1 = k
      · rw [if_pos ha]
        exact List.find?_cons_of_pos _ (by simp)
      · rw [if_neg ha]
        rw [List.find?_cons_of_neg _ (by simp [ha])]
        rw [List.find?_cons_of_neg _ (by simp [ha])] at h
        exact ih h

theorem find?_append_singleton (k : String) (v : Nat) :
    ∀ st : RetryCounts, st.find? (fun e => e.1 = k) = none →
      (st ++ [(k, v)]).find? (fun e => e.1 = k) = some (k, v) := by
  intro st
  induction st with
  | nil =>
      intro _
      rw [List.nil_append]
      exact List.find?_cons_of_pos _ (by simp)
  | cons a rest ih =>
      intro h
      rw [List.cons_append]
      by_cases ha : a.1 = k
      · rw [List.find?_cons_of_pos _ (by simp [ha])] at h
        exact absurd h (by simp)
      · rw [List.find?_cons_of_neg _ (by simp [ha])] at h
        rw [List.find?_cons_of_neg _ (by simp [ha])]
        exact ih h

theorem mapGet_mapSet_self (st : RetryCounts) (k : String) (v : Nat) :
    mapGet (mapSet st k v) k = some v := by
  unfold mapGet mapSet
  by_cases h : (st.find? (fun e => e.1 = k)).isSome
  · rw [if_pos h, find?_update_of_isSome k v st h]
    rfl
  · rw [if_neg h]
    have hnone : st.find? (fun e => e.1 = k) = none :=
      Option.not_isSome_iff_eq_none.mp h
    rw [find?_append_singleton k v st hnone]
    rfl

theorem mapGet_some_mem {st : RetryCounts} {k : String} {v : Nat}
    (h : mapGet st k = some v) : (k, v) ∈ st := by
  unfold mapGet at h
  rcases hf : st.find? (fun e => e.1 = k) with _ | e
  · rw [hf] at h
    simp at h
  · rw [hf] at h
    have hmem := List.mem_of_find?_eq_some hf
    have hk := List.find?_some hf
    simp only [decide_eq_true_eq] at hk
    obtain ⟨k2, v2⟩ := e
    simp only [Option.map_some'] at h
    injection h with h2
    simp only at hk h2
    subst hk
    subst h2
    exact hmem

/-- The body published to the `metadataDownload` queue by the
metadata-download HTTP route (`src/services/data-service/src/routes/info/index.ts`
lines 95-103): `configId`, `metadataSource`, the three selection arrays
and `totalItems`, but no `config`, `filename` or `periodId` field. -/
def metadataDownloadMessage (configId metadataSource : String)
    (viz maps dashboards : List String) : MessageContent :=
  { configId := some configId,
    metadataSource := some metadataSource,
    selectedVisualizations := viz,
    selectedMaps := maps,
    selectedDashboards := dashboards,
    totalItems := some (viz.length + maps.length + dashboards.length) }

/-- A concrete data-upload message used to instantiate the worker theorems:
its jobId evaluates to `"cfg1-item1-202401"`. -/
def wMsg : MessageContent :=
  { mainConfigId := some "cfg1", config := some ⟨some "item1"⟩,
    periodId := some "202401" }

/-- A concrete transient handler error (HTTP 503). -/
def wErr : WorkerError := .axios (some 503) none

/-- A concrete `UpstreamFatal` handler error (HTTP 400). -/
def wFatalErr : WorkerError := .axios (some 400) none

/-- One failing delivery of the `wMsg` job on the `dataUpload` queue. -/
def wEv : WorkerEvent := ⟨"dataUpload", wMsg, .failure wErr⟩

end Worker

/-- **C1.** For every consumed job, when the handler throws and the worker's
in-process retry count for that job is strictly below
`MAX_RETRIES = 2` (the spec's `IMMEDIATE_REQUEUE_LIMIT`), the worker
increments the count and nacks the message with `requeue = true`; otherwise it
nacks with `requeue = false` (dead-lettering it), and at the moment of that
DLQ routing the retry counter is at most 2 — for every retry table reachable
from the initial empty table by any sequence of deliveries. -/
theorem worker_retry_increment_and_dlq_bound
    (evs : List Worker.WorkerEvent) (handlerType : String)
    (m : Worker.MessageContent) (err : Worker.WorkerError) (jobId : String)
    (hjob : Worker.jobIdOf m handlerType = some jobId)
    (hknown : handlerType ∈ Worker.handlerTypes) :
    ((Worker.mapGet (Worker.runWorker evs) jobId).getD 0 < Worker.MAX_RETRIES →
      (Worker.consumeMessage (Worker.runWorker evs) handlerType m
          (.failure err)).action = Worker.BrokerAction.nack true ∧
      Worker.mapGet (Worker.consumeMessage (Worker.runWorker evs) handlerType m
          (.failure err)).retryCounts jobId
        = some ((Worker.mapGet (Worker.runWorker evs) jobId).getD 0 + 1)) ∧
    (¬ (Worker.mapGet (Worker.runWorker evs) jobId).getD 0 < Worker.MAX_RETRIES →
      (Worker.consumeMessage (Worker.runWorker evs) handlerType m
          (.failure err)).action = Worker.BrokerAction.nack false ∧
      (Worker.mapGet (Worker.runWorker evs) jobId).getD 0 ≤ Worker.MAX_RETRIES) := by
  constructor
  · intro hc
    unfold Worker.consumeMessage
    rw [hjob]
    dsimp only
    rw [if_pos hknown, if_pos hc]
    exact ⟨rfl, Worker.mapGet_mapSet_self _ _ _⟩
  · intro hc
    constructor
    · unfold Worker.consumeMessage
      rw [hjob]
      dsimp only
      rw [if_pos hknown, if_neg hc]
    · rcases hv : Worker.mapGet (Worker.runWorker evs) jobId with _ | v
      · simp [Worker.MAX_RETRIES]
      · have hb := Worker.runWorker_counts_le evs (jobId, v)
          (Worker.mapGet_some_mem hv)
        simpa [hv] using hb

/-- Witness for C1: a fresh job (empty table) is requeued on first failure,
and after two failing deliveries of the same job a third failure is nacked
without requeue. -/
theorem worker_retry_increment_and_dlq_bound_witness :
    (Worker.consumeMessage (Worker.runWorker []) "dataUpload" Worker.wMsg
        (.failure Worker.wErr)).action = Worker.BrokerAction.nack true ∧
    (Worker.consumeMessage (Worker.runWorker [Worker.wEv, Worker.wEv])
        "dataUpload" Worker.wMsg
        (.failure Worker.wErr)).action = Worker.BrokerAction.nack false :=
  ⟨((worker_retry_increment_and_dlq_bound [] "dataUpload" Worker.wMsg Worker.wErr
      "cfg1-item1-202401" (by decide) (by decide)).1 (by decide)).1,
   ((worker_retry_increment_and_dlq_bound [Worker.wEv, Worker.wEv] "dataUpload"
      Worker.wMsg Worker.wErr
      "cfg1-item1-202401" (by decide) (by decide)).2 (by decide)).1⟩

/-- **C7 counterexample.** The claim says an `UpstreamFatal` failure (HTTP
4xx other than 409) is nacked without requeue on its first occurrence.  It is
false: the consume callback has no error-type branch, so a first-occurrence
failure with an HTTP 400 response (empty retry table) is nacked WITH requeue. -/
theorem upstreamFatal_first_failure_requeues_cex :
    Worker.isUpstreamFatal (.axios (some 400) none) = true ∧
    (Worker.consumeMessage [] "dataUpload" Worker.wMsg
        (.failure (.axios (some 400) none))).action
      = Worker.BrokerAction.nack true ∧
    (Worker.consumeMessage [] "dataUpload" Worker.wMsg
        (.failure (.axios (some 400) none))).action
      ≠ Worker.BrokerAction.nack false := by decide

/-- **C7 (amended).** The worker applies one uniform retry policy to every
handler error, `UpstreamFatal` included: on the first occurrence of the
failure (job absent from the retry table) the message is nacked WITH requeue,
and a nack without requeue (DLQ routing) happens only once the in-process
retry count has reached `MAX_RETRIES = 2`. -/
theorem upstreamFatal_uniform_retry_policy
    (st : Worker.RetryCounts) (handlerType : String)
    (m : Worker.MessageContent) (err : Worker.WorkerError) (jobId : String)
    (hjob : Worker.jobIdOf m handlerType = some jobId)
    (hknown : handlerType ∈ Worker.handlerTypes)
    (hfatal : Worker.isUpstreamFatal err = true) :
    (Worker.mapGet st jobId = none →
      (Worker.consumeMessage st handlerType m (.failure err)).action
        = Worker.BrokerAction.nack true) ∧
    ((Worker.consumeMessage st handlerType m (.failure err)).action
        = Worker.BrokerAction.nack false →
      Worker.MAX_RETRIES ≤ (Worker.mapGet st jobId).getD 0) := by
  constructor
  · intro hfresh
    unfold Worker.consumeMessage
    rw [hjob]
    dsimp only
    rw [if_pos hknown]
    rw [if_pos (show (Worker.mapGet st jobId).getD 0 < Worker.MAX_RETRIES by
      rw [hfresh]
      decide)]
  · intro hdlq
    by_cases hc : (Worker.mapGet st jobId).getD 0 < Worker.MAX_RETRIES
    · exfalso
      unfold Worker.consumeMessage at hdlq
      rw [hjob] at hdlq
      dsimp only at hdlq
      rw [if_pos hknown, if_pos hc] at hdlq
      simp at hdlq
    · omega

/-- Witness for C7 (amended): first occurrence of an HTTP 400 failure is
requeued; a nack without requeue on a table holding count 2 implies the
counter already reached 2. -/
theorem upstreamFatal_uniform_retry_policy_witness :
    ((Worker.consumeMessage [] "dataUpload" Worker.wMsg
        (.failure Worker.wFatalErr)).action = Worker.BrokerAction.nack true) ∧
    ((Worker.consumeMessage [("cfg1-item1-202401", 2)] "dataUpload" Worker.wMsg
          (.failure Worker.wFatalErr)).action = Worker.BrokerAction.nack false →
      Worker.MAX_RETRIES
        ≤ (Worker.mapGet [("cfg1-item1-202401", 2)] "cfg1-item1-202401").getD 0) :=
  ⟨(upstreamFatal_uniform_retry_policy [] "dataUpload" Worker.wMsg
      Worker.wFatalErr "cfg1-item1-202401" (by decide) (by decide) (by decide)).1
      (by decide),
   (upstreamFatal_uniform_retry_policy [("cfg1-item1-202401", 2)] "dataUpload"
      Worker.wMsg Worker.wFatalErr "cfg1-item1-202401" (by decide) (by decide)
      (by decide)).2⟩

/-- **C9.** For every consumed message whose body lacks a `config` object —
in particular every metadata-download job as published by the HTTP route,
which carries `configId`, `metadataSource` and selections but no `config`
field — the consume callback evaluates `messageContent.config.id` and throws
a `TypeError` before entering the `try` block that dispatches handlers, so
the message is neither acked nor nacked and the retry table is unchanged. -/
theorem metadata_message_crashes_before_try
    (st : Worker.RetryCounts) (handlerType : String)
    (outcome : Worker.HandlerOutcome)
    (cid src : String) (viz maps dashboards : List String) :
    Worker.consumeMessage st handlerType
        (Worker.metadataDownloadMessage cid src viz maps dashboards) outcome
      = ⟨Worker.BrokerAction.crashTypeError, st⟩ := rfl

/-! ## Mapping engine

Embedding of `expandDataElement` and `processDataItems` from
`src/services/data-service/src/utils/data.ts` (lines 100-250).  The three
HTTP round-trips of `expandDataElement` (data element → category combo →
option combos → each combo's id and name) are abstracted into an
environment function giving a bare data element's category-option-combos;
the combo-key construction, the compound short-circuit, the
ID-then-name join and the lodash `uniqWith(results, isEqual)`
deduplication are modelled exactly.
-/

namespace MappingEngine

/-- A `{id, sourceId}` mapping pair (`type Mapping` in data.ts line 100). -/
structure Mapping where
  id : String
  sourceId : String
deriving DecidableEq

/-- An expanded combo entry (`type Expanded` in data.ts line 101). -/
structure Expanded where
  combo : String
  id : String
  name : String
deriving DecidableEq

/-- The id and name of one category-option-combo as fetched from the API
in step 3 of the `expandDataElement` pipeline. -/
structure CocMeta where
  id : String
  name : String
deriving DecidableEq

/-- JS `s.includes(".")`: whether the string holds a `.` character. -/
def jsIncludesDot (s : String) : Bool :=
  decide ('.' ∈ s.data)

/-- JS `s.split(".")[1]`: the characters after the first `.` up to the
next `.` (the `coc` half of a compound `de.coc` identifier). -/
def secondComponent (s : String) : String :=
  ⟨((s.data.dropWhile (fun c => c ≠ '.')).drop 1).takeWhile (fun c => c ≠ '.')⟩

/-- `expandDataElement` (data.ts lines 104-174).  A compound element
`de.coc` short-circuits to `[{combo: element, id: coc, name: ""}]`; a
bare element expands each fetched combo `c` to
`{combo: element ++ "." ++ c.id, id: c.id, name: c.name}`. -/
def expandDataElement (cocs : String → List CocMeta) (element : String) :
    List Expanded :=
  if jsIncludesDot element then
    [{ combo := element, id := secondComponent element, name := "" }]
  else
    (cocs element).map fun c =>
      { combo := element ++ "." ++ c.id, id := c.id, name := c.name }

/-- The join body of `processDataItems` (data.ts lines 207-228) for one
destination-side expanded combo `idCoc`: first source combo with the same
combo ID; else first source combo with a truthy (non-empty) name equal to
`idCoc.name`; else nothing. -/
def joinOne (sourceCombos : List Expanded) (idCoc : Expanded) : List Mapping :=
  match sourceCombos.find? (fun s => s.id = idCoc.id) with
  | some m => [{ id := idCoc.combo, sourceId := m.combo }]
  | none =>
      match sourceCombos.find? (fun s => s.name ≠ "" ∧ s.name = idCoc.name) with
      | some m => [{ id := idCoc.combo, sourceId := m.combo }]
      | none => []

/-- The per-mapping body of the `processDataItems` loop (data.ts lines
192-229): both-compound mappings pass through unchanged, otherwise both
sides are expanded and every destination combo is joined. -/
def processOneMapping (destCocs srcCocs : String → List CocMeta)
    (m : Mapping) : List Mapping :=
  if jsIncludesDot m.id && jsIncludesDot m.sourceId then
    [m]
  else
    ((expandDataElement destCocs m.id).map
      (joinOne (expandDataElement srcCocs m.sourceId))).flatten

/-- Lodash `uniqWith(results, isEqual)` (data.ts line 231): keep the first
occurrence of each value, dropping later duplicates. -/
def uniqWith {α : Type} [DecidableEq α] (l : List α) : List α :=
  l.foldl (fun acc x => if x ∈ acc then acc else acc ++ [x]) []

/-- `processDataItems` (data.ts lines 178-250): accumulate the join of
every mapping, then deduplicate. -/
def processDataItems (destCocs srcCocs : String → List CocMeta)
    (mappings : List Mapping) : List Mapping :=
  uniqWith ((mappings.map (processOneMapping destCocs srcCocs)).flatten)

theorem uniqWith_foldl_mem {α : Type} [DecidableEq α] (a : α) :
    ∀ (l acc : List α),
      (a ∈ l.foldl (fun acc x => if x ∈ acc then acc else acc ++ [x]) acc
        ↔ a ∈ acc ∨ a ∈ l) := by
  intro l
  induction l with
  | nil =>
      intro acc
      simp
  | cons x xs ih =>
      intro acc
      rw [List.foldl_cons]
      by_cases hx : x ∈ acc
      · rw [if_pos hx, ih]
        constructor
        · rintro (h | h)
          · exact Or.inl h
          · exact Or.inr (List.mem_cons_of_mem _ h)
        · rintro (h | h)
          · exact Or.inl h
          · rcases List.mem_cons.mp h with rfl | h2
            · exact Or.inl hx
            · exact Or.inr h2
      · rw [if_neg hx, ih]
        rw [List.mem_append, List.mem_singleton, List.mem_cons]
        tauto

theorem mem_uniqWith {α : Type} [DecidableEq α] (l : List α) (a : α) :
    a ∈ uniqWith l ↔ a ∈ l := by
  unfold uniqWith
  rw [uniqWith_foldl_mem]
  simp

theorem uniqWith_foldl_nodup {α : Type} [DecidableEq α] :
    ∀ (l acc : List α), acc.Nodup →
      (l.foldl (fun acc x => if x ∈ acc then acc else acc ++ [x]) acc).Nodup := by
  intro l
  induction l with
  | nil =>
      intro acc h
      simpa using h
  | cons x xs ih =>
      intro acc h
      rw [List.foldl_cons]
      by_cases hx : x ∈ acc
      · rw [if_pos hx]
        exact ih acc h
      · rw [if_neg hx]
        refine ih _ ?_
        rw [List.nodup_append]
        exact ⟨h, List.nodup_singleton x, by
          intro b hb hb2
          rw [List.mem_singleton] at hb2
          exact hx (hb2 ▸ hb)⟩

theorem uniqWith_nodup {α : Type} [DecidableEq α] (l : List α) :
    (uniqWith l).Nodup :=
  uniqWith_foldl_nodup l [] List.nodup_nil

theorem contains_dot_append (a b : String) :
    jsIncludesDot (a ++ "." ++ b) = true := by
  have h : '.' ∈ (a ++ "." ++ b).data := by
    simp [String.data_append]
  simpa [jsIncludesDot] using h

theorem expandDataElement_combo_compound {cocs : String → List CocMeta}
    {e : String} {x : Expanded} (hx : x ∈ expandDataElement cocs e) :
    jsIncludesDot x.combo = true := by
  unfold expandDataElement at hx
  by_cases hc : jsIncludesDot e = true
  · rw [if_pos hc] at hx
    rw [List.mem_singleton] at hx
    subst hx
    exact hc
  · rw [if_neg hc] at hx
    rw [List.mem_map] at hx
    obtain ⟨c, _, rfl⟩ := hx
    exact contains_dot_append e c.id

theorem mem_joinOne {srcCombos : List Expanded} {idCoc : Expanded}
    {p : Mapping} (hp : p ∈ joinOne srcCombos idCoc) :
    ∃ s ∈ srcCombos, p = ⟨idCoc.combo, s.combo⟩ ∧
      (s.id = idCoc.id ∨ (s.name ≠ "" ∧ s.name = idCoc.name)) := by
  unfold joinOne at hp
  rcases h1 : srcCombos.find? (fun s => s.id = idCoc.id) with _ | s
  · rw [h1] at hp
    rcases h2 : srcCombos.find? (fun s => s.name ≠ "" ∧ s.name = idCoc.name)
        with _ | s
    · rw [h2] at hp
      simp at hp
    · rw [h2] at hp
      rw [List.mem_singleton] at hp
      refine ⟨s, List.mem_of_find?_eq_some h2, hp, Or.inr ?_⟩
      have h3 := List.find?_some h2
      simpa using h3
  · rw [h1] at hp
    rw [List.mem_singleton] at hp
    refine ⟨s, List.mem_of_find?_eq_some h1, hp, Or.inl ?_⟩
    have h3 := List.find?_some h1
    simpa using h3

theorem mem_processOneMapping_sound {destCocs srcCocs : String → List CocMeta}
    {m p : Mapping}
    (hbare : (jsIncludesDot m.id && jsIncludesDot m.sourceId) = false)
    (hp : p ∈ processOneMapping destCocs srcCocs m) :
    ∃ idCoc ∈ expandDataElement destCocs m.id,
      ∃ s ∈ expandDataElement srcCocs m.sourceId,
        p = ⟨idCoc.combo, s.combo⟩ ∧
          (s.id = idCoc.id ∨ (s.name ≠ "" ∧ s.name = idCoc.name)) := by
  unfold processOneMapping at hp
  rw [if_neg (by simp [hbare])] at hp
  rw [List.mem_flatten] at hp
  obtain ⟨l, hl, hpl⟩ := hp
  rw [List.mem_map] at hl
  obtain ⟨idCoc, hid, rfl⟩ := hl
  obtain ⟨s, hs, heq, hm⟩ := mem_joinOne hpl
  exact ⟨idCoc, hid, s, hs, heq, hm⟩

theorem mem_processOneMapping_compound {destCocs srcCocs : String → List CocMeta}
    {m p : Mapping} (hp : p ∈ processOneMapping destCocs srcCocs m) :
    jsIncludesDot p.id = true ∧ jsIncludesDot p.sourceId = true := by
  by_cases hb : (jsIncludesDot m.id && jsIncludesDot m.sourceId) = true
  · unfold processOneMapping at hp
    rw [if_pos hb] at hp
    rw [List.mem_singleton] at hp
    subst hp
    exact Bool.and_eq_true_iff.mp hb
  · have hb2 : (jsIncludesDot m.id && jsIncludesDot m.sourceId) = false :=
      Bool.eq_false_iff.mpr hb
    obtain ⟨idCoc, hid, s, hs, rfl, _⟩ := mem_processOneMapping_sound hb2 hp
    exact ⟨expandDataElement_combo_compound hid,
           expandDataElement_combo_compound hs⟩

/-- Environment for scenario S4, source side: data element `DE_A` has
category-option-combos `{id: C1, name: Male}` and `{id: C2, name: Female}`. -/
def s4SrcCocs : String → List CocMeta := fun e =>
  if e = "DE_A" then [⟨"C1", "Male"⟩, ⟨"C2", "Female"⟩] else []

/-- Environment for scenario S4, destination side: data element `DE_B` has
category-option-combos `{id: D1, name: Male}` and `{id: C2, name: Other}`. -/
def s4DestCocs : String → List CocMeta := fun e =>
  if e = "DE_B" then [⟨"D1", "Male"⟩, ⟨"C2", "Other"⟩] else []

/-- The S4 input mapping `{destinationId: DE_B, sourceId: DE_A}`. -/
def s4Mapping : Mapping := ⟨"DE_B", "DE_A"⟩

end MappingEngine

/-- **C4.** In `processDataItems`, for every mapping where at least one side
is bare, each destination-side expanded combo is joined to a source-side
combo first by category-option-combo ID equality and, only when no ID match
exists, by (non-empty) name equality; a destination combo with neither an ID
match nor a name match produces no output pair; and no other matching rule
is applied: every output pair of the mapping arises from an ID match or a
name match. -/
theorem mapping_join_id_then_name_rules
    (destCocs srcCocs : String → List MappingEngine.CocMeta)
    (m : MappingEngine.Mapping)
    (hbare : (MappingEngine.jsIncludesDot m.id && MappingEngine.jsIncludesDot m.sourceId) = false) :
    (∀ idCoc ∈ MappingEngine.expandDataElement destCocs m.id,
      ((∃ s ∈ MappingEngine.expandDataElement srcCocs m.sourceId,
          s.id = idCoc.id) →
        ∃ s ∈ MappingEngine.expandDataElement srcCocs m.sourceId,
          s.id = idCoc.id ∧
          MappingEngine.joinOne
              (MappingEngine.expandDataElement srcCocs m.sourceId) idCoc
            = [⟨idCoc.combo, s.combo⟩]) ∧
      ((¬ ∃ s ∈ MappingEngine.expandDataElement srcCocs m.sourceId,
          s.id = idCoc.id) →
        (∃ s ∈ MappingEngine.expandDataElement srcCocs m.sourceId,
          s.name ≠ "" ∧ s.name = idCoc.name) →
        ∃ s ∈ MappingEngine.expandDataElement srcCocs m.sourceId,
          s.name ≠ "" ∧ s.name = idCoc.name ∧
          MappingEngine.joinOne
              (MappingEngine.expandDataElement srcCocs m.sourceId) idCoc
            = [⟨idCoc.combo, s.combo⟩]) ∧
      ((¬ ∃ s ∈ MappingEngine.expandDataElement srcCocs m.sourceId,
          s.id = idCoc.id) →
        (¬ ∃ s ∈ MappingEngine.expandDataElement srcCocs m.sourceId,
          s.name ≠ "" ∧ s.name = idCoc.name) →
        MappingEngine.joinOne
            (MappingEngine.expandDataElement srcCocs m.sourceId) idCoc
          = [])) ∧
    (∀ p ∈ MappingEngine.processOneMapping destCocs srcCocs m,
      ∃ idCoc ∈ MappingEngine.expandDataElement destCocs m.id,
        ∃ s ∈ MappingEngine.expandDataElement srcCocs m.sourceId,
          p = ⟨idCoc.combo, s.combo⟩ ∧
            (s.id = idCoc.id ∨ (s.name ≠ "" ∧ s.name = idCoc.name))) := by
  constructor
  · intro idCoc _
    refine ⟨?_, ?_, ?_⟩
    · rintro ⟨s, hs, hsid⟩
      have hsome : ((MappingEngine.expandDataElement srcCocs m.sourceId).find?
          (fun s => s.id = idCoc.id)).isSome := by
        rw [List.find?_isSome]
        exact ⟨s, hs, by simpa using hsid⟩
      rcases hf : (MappingEngine.expandDataElement srcCocs m.sourceId).find?
          (fun s => s.id = idCoc.id) with _ | s0
      · rw [hf] at hsome
        simp at hsome
      · refine ⟨s0, List.mem_of_find?_eq_some hf,
          by simpa using List.find?_some hf, ?_⟩
        unfold MappingEngine.joinOne
        rw [hf]
    · intro hnone hex
      have hfn : (MappingEngine.expandDataElement srcCocs m.sourceId).find?
          (fun s => s.id = idCoc.id) = none := by
        rw [List.find?_eq_none]
        intro x hx
        simp only [decide_eq_true_eq]
        intro hxid
        exact hnone ⟨x, hx, hxid⟩
      obtain ⟨s, hs, hsname⟩ := hex
      have hsome : ((MappingEngine.expandDataElement srcCocs m.sourceId).find?
          (fun s => s.name ≠ "" ∧ s.name = idCoc.name)).isSome := by
        rw [List.find?_isSome]
        exact ⟨s, hs, by simpa using hsname⟩
      rcases hf : (MappingEngine.expandDataElement srcCocs m.sourceId).find?
          (fun s => s.name ≠ "" ∧ s.name = idCoc.name) with _ | s0
      · rw [hf] at hsome
        simp at hsome
      · have hprop : s0.name ≠ "" ∧ s0.name = idCoc.name := by
          simpa using List.find?_some hf
        refine ⟨s0, List.mem_of_find?_eq_some hf, hprop.1, hprop.2, ?_⟩
        unfold MappingEngine.joinOne
        rw [hfn, hf]
    · intro hnone1 hnone2
      have hfn1 : (MappingEngine.expandDataElement srcCocs m.sourceId).find?
          (fun s => s.id = idCoc.id) = none := by
        rw [List.find?_eq_none]
        intro x hx
        simp only [decide_eq_true_eq]
        intro hxid
        exact hnone1 ⟨x, hx, hxid⟩
      have hfn2 : (MappingEngine.expandDataElement srcCocs m.sourceId).find?
          (fun s => s.name ≠ "" ∧ s.name = idCoc.name) = none := by
        rw [List.find?_eq_none]
        intro x hx
        simp only [decide_eq_true_eq]
        intro hxn
        exact hnone2 ⟨x, hx, hxn⟩
      unfold MappingEngine.joinOne
      rw [hfn1, hfn2]
  · intro p hp
    exact MappingEngine.mem_processOneMapping_sound hbare hp

/-- Witness for C4, scenario S4: the destination combo `DE_B.C2` (id `C2`,
name `Other`) has an ID match on the source side, and the join yields the
pair `{DE_B.C2 ↔ DE_A.C2}`. -/
theorem mapping_join_id_then_name_rules_witness :
    ∃ s ∈ MappingEngine.expandDataElement MappingEngine.s4SrcCocs "DE_A",
      s.id = "C2" ∧
      MappingEngine.joinOne
          (MappingEngine.expandDataElement MappingEngine.s4SrcCocs "DE_A")
          ⟨"DE_B.C2", "C2", "Other"⟩
        = [⟨"DE_B.C2", s.combo⟩] :=
  ((mapping_join_id_then_name_rules MappingEngine.s4DestCocs
      MappingEngine.s4SrcCocs MappingEngine.s4Mapping (by decide)).1
      ⟨"DE_B.C2", "C2", "Other"⟩ (by decide)).1 (by decide)

/-- **C5.** For every input, the list returned by `processDataItems`
contains no two pairs equal by value equality (it is deduplicated), and
every pair in it is compound on both sides: both `id` and `sourceId`
contain a `.` separator. -/
theorem processDataItems_dedup_and_compound
    (destCocs srcCocs : String → List MappingEngine.CocMeta)
    (mappings : List MappingEngine.Mapping) :
    (MappingEngine.processDataItems destCocs srcCocs mappings).Nodup ∧
    ∀ p ∈ MappingEngine.processDataItems destCocs srcCocs mappings,
      MappingEngine.jsIncludesDot p.id = true ∧ MappingEngine.jsIncludesDot p.sourceId = true := by
  constructor
  · exact MappingEngine.uniqWith_nodup _
  · intro p hp
    unfold MappingEngine.processDataItems at hp
    rw [MappingEngine.mem_uniqWith] at hp
    rw [List.mem_flatten] at hp
    obtain ⟨l, hl, hpl⟩ := hp
    rw [List.mem_map] at hl
    obtain ⟨m, _, rfl⟩ := hl
    exact MappingEngine.mem_processOneMapping_compound hpl

/-- Witness for C5, scenario S4: the concrete output pair
`{DE_B.C2 ↔ DE_A.C2}` is compound on both sides. -/
theorem processDataItems_dedup_and_compound_witness :
    MappingEngine.jsIncludesDot (MappingEngine.Mapping.id ⟨"DE_B.C2", "DE_A.C2"⟩) = true ∧
    MappingEngine.jsIncludesDot (MappingEngine.Mapping.sourceId ⟨"DE_B.C2", "DE_A.C2"⟩) = true :=
  (processDataItems_dedup_and_compound MappingEngine.s4DestCocs
      MappingEngine.s4SrcCocs [MappingEngine.s4Mapping]).2
    ⟨"DE_B.C2", "DE_A.C2"⟩ (by decide)

/-- **C10.** For every mapping where exactly one side is compound,
`expandDataElement` returns for the compound side a single entry whose
`name` is the empty string, and the join's name fallback requires a
non-empty name; therefore every output pair of such a mapping arises from a
category-option-combo ID match, never from a name match. -/
theorem compound_side_only_id_matches
    (destCocs srcCocs : String → List MappingEngine.CocMeta)
    (m : MappingEngine.Mapping)
    (hxor : MappingEngine.jsIncludesDot m.id ≠ MappingEngine.jsIncludesDot m.sourceId) :
    (∀ (cocs : String → List MappingEngine.CocMeta) (e : String),
      MappingEngine.jsIncludesDot e = true →
      MappingEngine.expandDataElement cocs e
        = [⟨e, MappingEngine.secondComponent e, ""⟩]) ∧
    (∀ p ∈ MappingEngine.processOneMapping destCocs srcCocs m,
      ∃ idCoc ∈ MappingEngine.expandDataElement destCocs m.id,
        ∃ s ∈ MappingEngine.expandDataElement srcCocs m.sourceId,
          p = ⟨idCoc.combo, s.combo⟩ ∧ s.id = idCoc.id) := by
  constructor
  · intro cocs e he
    unfold MappingEngine.expandDataElement
    rw [if_pos he]
  · intro p hp
    have hbare : (MappingEngine.jsIncludesDot m.id && MappingEngine.jsIncludesDot m.sourceId) = false := by
      rcases hid : MappingEngine.jsIncludesDot m.id with _ | _ <;>
        rcases hsrc : MappingEngine.jsIncludesDot m.sourceId with _ | _ <;>
        simp_all
    obtain ⟨idCoc, hid, s, hs, heq, hm⟩ :=
      MappingEngine.mem_processOneMapping_sound hbare hp
    refine ⟨idCoc, hid, s, hs, heq, ?_⟩
    rcases hm with hm | ⟨hname, hnameeq⟩
    · exact hm
    · exfalso
      rcases hcid : MappingEngine.jsIncludesDot m.id with _ | _
      · have hcs : MappingEngine.jsIncludesDot m.sourceId = true := by
          rcases h2 : MappingEngine.jsIncludesDot m.sourceId with _ | _
          · rw [hcid, h2] at hxor
            exact absurd rfl hxor
          · rfl
        unfold MappingEngine.expandDataElement at hs
        rw [if_pos hcs] at hs
        rw [List.mem_singleton] at hs
        subst hs
        exact hname rfl
      · unfold MappingEngine.expandDataElement at hid
        rw [if_pos hcid] at hid
        rw [List.mem_singleton] at hid
        subst hid
        simp only at hnameeq
        exact hname (hnameeq.trans rfl)

/-- Witness for C10: the mapping `{id: DE_B, sourceId: DE_A.C2}` has a
compound source side; the output pair `{DE_B.C2 ↔ DE_A.C2}` arises from the
ID match on `C2`. -/
theorem compound_side_only_id_matches_witness :
    ∃ idCoc ∈ MappingEngine.expandDataElement MappingEngine.s4DestCocs "DE_B",
      ∃ s ∈ MappingEngine.expandDataElement MappingEngine.s4SrcCocs "DE_A.C2",
        (MappingEngine.Mapping.mk "DE_B.C2" "DE_A.C2")
            = ⟨idCoc.combo, s.combo⟩ ∧ s.id = idCoc.id :=
  (compound_side_only_id_matches MappingEngine.s4DestCocs
      MappingEngine.s4SrcCocs ⟨"DE_B", "DE_A.C2"⟩ (by decide)).2
    ⟨"DE_B.C2", "DE_A.C2"⟩ (by decide)

/-! ## Data upload / deletion handlers

Embedding of `uploadDataValues` and `deleteDataValues` from
`src/services/data-service/src/services/data-migration/data-upload.ts`
(lines 148-270).  The POST itself is abstracted into its outcome; logging
is modelled as the summary that gets logged, file deletion as a flag, and
the rethrow as the returned error.
-/

namespace DataUpload

/-- The `importCount` of a DHIS2 import summary. -/
structure ImportCount where
  imported : Nat
  ignored : Nat
deriving DecidableEq

/-- An error thrown around the POST to `dataValueSets`: an axios HTTP
error carrying the response status and the optional
`response.data.response` import summary; a JS `TypeError` (field access
on `undefined`); or any other error. -/
inductive UploadError where
  | axios (status : Nat) (summary : Option ImportCount)
  | typeError
  | other (message : String)
deriving DecidableEq

/-- The outcome of `client.post("dataValueSets", ...)`: a 2xx response
with the optional `response.data.response` summary, or a thrown error. -/
inductive PostOutcome where
  | ok (summary : Option ImportCount)
  | err (e : UploadError)
deriving DecidableEq

/-- The observable result of one handler run: the import summary it
logged (if any), whether the scratch file was deleted, and the error it
rethrew (if any). -/
structure UploadResult where
  loggedSummary : Option ImportCount
  fileDeleted : Bool
  thrown : Option UploadError
deriving DecidableEq

/-- `uploadDataValues` (data-upload.ts lines 148-208), POSTing with
`importStrategy=CREATE_AND_UPDATE`.  Success: log the summary, delete the
file (reading the counts of an absent summary throws a `TypeError`,
rethrown by the outer catch without deleting).  Axios 409: log the
summary, delete the file, rethrow the axios error.  Other axios errors
and non-axios errors: rethrow without deleting. -/
def uploadDataValues (post : PostOutcome) : UploadResult :=
  match post with
  | .ok (some ic) => ⟨some ic, true, none⟩
  | .ok none => ⟨none, false, some .typeError⟩
  | .err (.axios status summary) =>
      if status = 409 then
        match summary with
        | some ic => ⟨some ic, true, some (.axios status summary)⟩
        | none => ⟨none, false, some .typeError⟩
      else
        ⟨none, false, some (.axios status summary)⟩
  | .err e => ⟨none, false, some e⟩

/-- `deleteDataValues` (data-upload.ts lines 211-270): the source
duplicates the whole control flow of `uploadDataValues` with
`importStrategy=DELETE`. -/
def deleteDataValues (post : PostOutcome) : UploadResult :=
  match post with
  | .ok (some ic) => ⟨some ic, true, none⟩
  | .ok none => ⟨none, false, some .typeError⟩
  | .err (.axios status summary) =>
      if status = 409 then
        match summary with
        | some ic => ⟨some ic, true, some (.axios status summary)⟩
        | none => ⟨none, false, some .typeError⟩
      else
        ⟨none, false, some (.axios status summary)⟩
  | .err e => ⟨none, false, some e⟩

end DataUpload

/-- **C6.** For every data-upload or data-deletion job whose POST to
`dataValueSets` fails with HTTP 409 (the conflict response carrying an import
summary), the handler logs the imported/ignored summary of the
response, deletes the scratch file, and then rethrows the error — in both
`uploadDataValues` and `deleteDataValues`. -/
theorem upload_409_logs_cleans_rethrows
    (status : Nat) (ic : DataUpload.ImportCount)
    (h409 : status = 409) :
    DataUpload.uploadDataValues (.err (.axios status (some ic)))
      = ⟨some ic, true, some (.axios status (some ic))⟩ ∧
    DataUpload.deleteDataValues (.err (.axios status (some ic)))
      = ⟨some ic, true, some (.axios status (some ic))⟩ := by
  subst h409
  exact ⟨rfl, rfl⟩

/-- Witness for C6: the scenario-S3 conflict summary `imported:0, ignored:1`. -/
theorem upload_409_logs_cleans_rethrows_witness :
    DataUpload.uploadDataValues (.err (.axios 409 (some ⟨0, 1⟩)))
      = ⟨some ⟨0, 1⟩, true, some (.axios 409 (some ⟨0, 1⟩))⟩ ∧
    DataUpload.deleteDataValues (.err (.axios 409 (some ⟨0, 1⟩)))
      = ⟨some ⟨0, 1⟩, true, some (.axios 409 (some ⟨0, 1⟩))⟩ :=
  upload_409_logs_cleans_rethrows 409 ⟨0, 1⟩ rfl

/-! ## Validation engine

Embedding of the diff step of `performValidation` from
`src/apps/manager/src/shared/components/DataConfiguration/components/Validationlogs/hooks/validation.ts`
(lines 529-623).  The two analytics fetches are abstracted into the two
lists of data values; `addDiscrepancy` side effects are modelled as the
produced list of discrepancy records.  Display-name fields
(`dataElementName`, `orgUnitName`, `details`) are derived presentation
strings and are not modelled.
-/

namespace Validation

/-- One analytics data value as consumed by the validation diff. -/
structure DataValue where
  dataElement : String
  period : String
  orgUnit : String
  categoryOptionCombo : Option String
  value : String
deriving DecidableEq

/-- JS `x || d` on an optional string: `undefined` and the empty string
are falsy. -/
def jsOrString (x : Option String) (d : String) : String :=
  match x with
  | none => d
  | some s => if s = "" then d else s

/-- `createDataKey` (validation.ts line 529):
`"${dataElement}_${period}_${orgUnit}_${categoryOptionCombo || 'default'}"`. -/
def createDataKey (dv : DataValue) : String :=
  dv.dataElement ++ "_" ++ dv.period ++ "_" ++ dv.orgUnit ++ "_" ++
    jsOrString dv.categoryOptionCombo "default"

/-- One `map.set(createDataKey(dv), dv)` step with JS `Map` semantics:
overwrite in place when the key exists, else append. -/
def mapPut (acc : List (String × DataValue)) (dv : DataValue) :
    List (String × DataValue) :=
  if (acc.find? (fun e => e.1 = createDataKey dv)).isSome then
    acc.map (fun e => if e.1 = createDataKey dv then (createDataKey dv, dv) else e)
  else
    acc ++ [(createDataKey dv, dv)]

/-- Building `sourceMap` / `destinationMap` (validation.ts lines 531-540):
`data.forEach(dv => map.set(createDataKey(dv), dv))`. -/
def buildMap (vs : List DataValue) : List (String × DataValue) :=
  vs.foldl mapPut []

/-- JS `map.get(k)` on the association-list map. -/
def mapLookup (m : List (String × DataValue)) (k : String) : Option DataValue :=
  (m.find? (fun e => e.1 = k)).map (fun e => e.2)

/-- Discrepancy severities. -/
inductive Severity where
  | critical
  | major
  | minor
deriving DecidableEq

/-- Discrepancy kinds produced by the diff. -/
inductive DiscrepancyType where
  | missing_in_destination
  | missing_in_source
  | value_mismatch
deriving DecidableEq

/-- A discrepancy record as produced by the `addDiscrepancy` calls of
`performValidation` (validation.ts lines 559-621). -/
structure Discrepancy where
  dataElement : String
  orgUnit : String
  period : String
  categoryOptionCombo : String
  sourceValue : Option String
  destinationValue : Option String
  discrepancyType : DiscrepancyType
  severity : Severity
deriving DecidableEq

/-- An exact decimal number `num / 10 ^ scale`: the value JS `parseFloat`
produces on a plain decimal literal (exact at the magnitudes this diff
compares). -/
structure Dec where
  num : Int
  scale : Nat
deriving DecidableEq

/-- `a - b` on exact decimals (common scale). -/
def Dec.sub (a b : Dec) : Dec :=
  ⟨a.num * (10 : Int) ^ b.scale - b.num * (10 : Int) ^ a.scale, a.scale + b.scale⟩

/-- `Math.abs` on exact decimals. -/
def Dec.abs (a : Dec) : Dec :=
  ⟨if a.num < 0 then -a.num else a.num, a.scale⟩

/-- `n < a` for a natural threshold `n` (the `> 100` / `> 10` tests). -/
def Dec.gtNat (a : Dec) (n : Nat) : Bool :=
  decide ((n : Int) * (10 : Int) ^ a.scale < a.num)

/-- The numeric value of a digit list. -/
def digitsVal (l : List Char) : Nat :=
  l.foldl (fun n c => 10 * n + (c.toNat - 48)) 0

/-- Model of JS `parseFloat` on plain decimal literals
`[+|-]digits[.digits]` (exponents and leading whitespace are not used by
the values this code path compares); `none` models `NaN`. -/
def parseFloatDec (s : String) : Option Dec :=
  let cs := s.data
  let neg := cs.head? = some '-'
  let cs2 := if cs.head? = some '-' ∨ cs.head? = some '+' then cs.drop 1 else cs
  let intPart := cs2.takeWhile Char.isDigit
  let rest := cs2.drop intPart.length
  let fracPart :=
    if rest.head? = some '.' then (rest.drop 1).takeWhile Char.isDigit else []
  if intPart.isEmpty ∧ fracPart.isEmpty then none
  else
    let mag : Int :=
      (digitsVal intPart : Int) * (10 : Int) ^ fracPart.length + (digitsVal fracPart : Int)
    some ⟨if neg then -mag else mag, fracPart.length⟩

/-- `Math.abs(parseFloat(a || '0') - parseFloat(b || '0'))`
(validation.ts line 575); `none` models `NaN`. -/
def numericDiff (a b : String) : Option Dec :=
  match parseFloatDec (if a = "" then "0" else a),
        parseFloatDec (if b = "" then "0" else b) with
  | some x, some y => some (Dec.abs (Dec.sub x y))
  | _, _ => none

/-- The severity ternary of validation.ts line 576:
`numericDiff > 100 ? 'critical' : numericDiff > 10 ? 'major' : 'minor'`
(`NaN` fails both comparisons, giving `minor`). -/
def mismatchSeverity (a b : String) : Severity :=
  match numericDiff a b with
  | some d => if d.gtNat 100 then .critical else if d.gtNat 10 then .major else .minor
  | none => .minor

/-- The `missing_in_destination` discrepancy for a source value
(validation.ts lines 559-571). -/
def missingInDestDisc (dv : DataValue) : Discrepancy :=
  { dataElement := dv.dataElement, orgUnit := dv.orgUnit, period := dv.period,
    categoryOptionCombo := jsOrString dv.categoryOptionCombo "default",
    sourceValue := some dv.value, destinationValue := none,
    discrepancyType := .missing_in_destination, severity := .major }

/-- The `value_mismatch` discrepancy for a source/destination pair
(validation.ts lines 573-593). -/
def mismatchDisc (sv dv : DataValue) : Discrepancy :=
  { dataElement := sv.dataElement, orgUnit := sv.orgUnit, period := sv.period,
    categoryOptionCombo := jsOrString sv.categoryOptionCombo "default",
    sourceValue := some sv.value, destinationValue := some dv.value,
    discrepancyType := .value_mismatch,
    severity := mismatchSeverity sv.value dv.value }

/-- The `missing_in_source` discrepancy for a destination value
(validation.ts lines 604-622). -/
def missingInSourceDisc (dv : DataValue) : Discrepancy :=
  { dataElement := dv.dataElement, orgUnit := dv.orgUnit, period := dv.period,
    categoryOptionCombo := jsOrString dv.categoryOptionCombo "default",
    sourceValue := none, destinationValue := some dv.value,
    discrepancyType := .missing_in_source, severity := .minor }

/-- The body of the first diff pass (validation.ts lines 552-602) for one
source-map entry: `missing_in_destination` when the key is absent from the
destination map, `value_mismatch` when present with a different `value`
string, nothing when the values match. -/
def srcPassEntry (dst : List (String × DataValue)) (e : String × DataValue) :
    Option Discrepancy :=
  match mapLookup dst e.1 with
  | none => some (missingInDestDisc e.2)
  | some dv => if e.2.value ≠ dv.value then some (mismatchDisc e.2 dv) else none

/-- The body of the second diff pass (validation.ts lines 604-623) for one
destination-map entry: `missing_in_source` when the key is absent from the
source map. -/
def dstPassEntry (src : List (String × DataValue)) (e : String × DataValue) :
    Option Discrepancy :=
  if (mapLookup src e.1).isSome then none else some (missingInSourceDisc e.2)

/-- The diff of `performValidation` (validation.ts lines 552-623): the
source-map pass followed by the destination-map pass, in iteration order. -/
def performValidationDiff (src dst : List (String × DataValue)) :
    List Discrepancy :=
  src.filterMap (srcPassEntry dst) ++ dst.filterMap (dstPassEntry src)

/-- The map key a discrepancy record pertains to (its
`categoryOptionCombo` field is already defaulted). -/
def discKey (d : Discrepancy) : String :=
  d.dataElement ++ "_" ++ d.period ++ "_" ++ d.orgUnit ++ "_" ++
    d.categoryOptionCombo

/-- Whether a source-map entry has a mismatching destination value. -/
def mismatchB (dst : List (String × DataValue)) (e : String × DataValue) : Bool :=
  match mapLookup dst e.1 with
  | some dv => decide (e.2.value ≠ dv.value)
  | none => false

/-- The scenario-S5 source value under key `K2` (value 5). -/
def s5SrcVal : DataValue := ⟨"K2", "202401", "OU1", none, "5"⟩

/-- The scenario-S5 destination value under key `K2` (value 7). -/
def s5DstVal : DataValue := ⟨"K2", "202401", "OU1", none, "7"⟩

end Validation

namespace Validation

theorem mem_mapPut {acc : List (String × DataValue)} {dv : DataValue} :
    ∀ p ∈ mapPut acc dv, p ∈ acc ∨ p = (createDataKey dv, dv) := by
  intro p hp
  unfold mapPut at hp
  by_cases h : (acc.find? (fun e => e.1 = createDataKey dv)).isSome
  · rw [if_pos h] at hp
    rw [List.mem_map] at hp
    obtain ⟨e, he, hfe⟩ := hp
    by_cases hek : e.1 = createDataKey dv
    · rw [if_pos hek] at hfe
      right
      rw [← hfe]
    · rw [if_neg hek] at hfe
      left
      rw [← hfe]
      exact he
  · rw [if_neg h] at hp
    rw [List.mem_append] at hp
    rcases hp with h1 | h1
    · exact Or.inl h1
    · right
      rw [List.mem_singleton] at h1
      exact h1

theorem buildMap_consistent (vs : List DataValue) :
    ∀ p ∈ buildMap vs, p.1 = createDataKey p.2 := by
  unfold buildMap
  have key : ∀ (l : List DataValue) (acc : List (String × DataValue)),
      (∀ p ∈ acc, p.1 = createDataKey p.2) →
      ∀ p ∈ l.foldl mapPut acc, p.1 = createDataKey p.2 := by
    intro l
    induction l with
    | nil =>
        intro acc h
        simpa using h
    | cons dv rest ih =>
        intro acc h
        rw [List.foldl_cons]
        refine ih (mapPut acc dv) ?_
        intro p hp
        rcases mem_mapPut p hp with h1 | h1
        · exact h p h1
        · rw [h1]
  exact key vs [] (by simp)

theorem mapPut_keys (acc : List (String × DataValue)) (dv : DataValue) :
    (mapPut acc dv).map Prod.fst = acc.map Prod.fst ∨
    ((mapPut acc dv).map Prod.fst = acc.map Prod.fst ++ [createDataKey dv] ∧
      createDataKey dv ∉ acc.map Prod.fst) := by
  unfold mapPut
  by_cases h : (acc.find? (fun e => e.1 = createDataKey dv)).isSome
  · left
    rw [if_pos h]
    rw [List.map_map]
    apply List.map_congr_left
    intro e _
    by_cases hek : e.1 = createDataKey dv
    · simp [hek]
    · simp [hek]
  · right
    rw [if_neg h]
    have hnone : acc.find? (fun e => e.1 = createDataKey dv) = none :=
      Option.not_isSome_iff_eq_none.mp h
    rw [List.find?_eq_none] at hnone
    constructor
    · simp
    · intro hmem
      rw [List.mem_map] at hmem
      obtain ⟨e, he, hke⟩ := hmem
      exact absurd (by simpa using hke) (by simpa using hnone e he)

theorem buildMap_keys_nodup (vs : List DataValue) :
    ((buildMap vs).map Prod.fst).Nodup := by
  unfold buildMap
  have key : ∀ (l : List DataValue) (acc : List (String × DataValue)),
      (acc.map Prod.fst).Nodup →
      ((l.foldl mapPut acc).map Prod.fst).Nodup := by
    intro l
    induction l with
    | nil =>
        intro acc h
        simpa using h
    | cons dv rest ih =>
        intro acc h
        rw [List.foldl_cons]
        refine ih (mapPut acc dv) ?_
        rcases mapPut_keys acc dv with h1 | ⟨h1, h2⟩
        · rw [h1]
          exact h
        · rw [h1]
          rw [List.nodup_append]
          exact ⟨h, List.nodup_singleton _, by
            intro b hb hb2
            rw [List.mem_singleton] at hb2
            exact h2 (hb2 ▸ hb)⟩
  exact key vs [] (by simp)

theorem mapLookup_eq_none_iff (m : List (String × DataValue)) (k : String) :
    mapLookup m k = none ↔ ∀ e ∈ m, e.1 ≠ k := by
  unfold mapLookup
  rw [Option.map_eq_none', List.find?_eq_none]
  constructor
  · intro h e he
    simpa using h e he
  · intro h e he
    simpa using h e he

theorem mapLookup_isSome_of_mem {m : List (String × DataValue)} {k : String}
    {dv : DataValue} (h : (k, dv) ∈ m) : (mapLookup m k).isSome := by
  unfold mapLookup
  rw [Option.isSome_map']
  rw [List.find?_isSome]
  exact ⟨(k, dv), h, by simp⟩

theorem mapLookup_some_mem {m : List (String × DataValue)} {k : String}
    {dv : DataValue} (h : mapLookup m k = some dv) : (k, dv) ∈ m := by
  unfold mapLookup at h
  rcases hf : m.find? (fun e => e.1 = k) with _ | e
  · rw [hf] at h
    simp at h
  · rw [hf] at h
    have hmem := List.mem_of_find?_eq_some hf
    have hk := List.find?_some hf
    simp only [decide_eq_true_eq] at hk
    obtain ⟨k2, v2⟩ := e
    simp only [Option.map_some'] at h
    injection h with h2
    simp only at hk h2
    subst hk
    subst h2
    exact hmem

theorem filter_key_eq_nil {m : List (String × DataValue)} {k : String}
    (h : ∀ e ∈ m, e.1 ≠ k) :
    m.filter (fun e => e.1 = k) = [] := by
  rw [List.filter_eq_nil]
  intro e he
  simpa using h e he

theorem filter_key_singleton {m : List (String × DataValue)} {k : String}
    {dv : DataValue} (hnodup : (m.map Prod.fst).Nodup) (hmem : (k, dv) ∈ m) :
    m.filter (fun e => e.1 = k) = [(k, dv)] := by
  induction m with
  | nil => simp at hmem
  | cons a rest ih =>
      rw [List.map_cons, List.nodup_cons] at hnodup
      rcases List.mem_cons.mp hmem with h1 | h1
      · rw [← h1]
        rw [List.filter_cons_of_pos (by simp)]
        rw [filter_key_eq_nil]
        intro e he hek
        apply hnodup.1
        rw [← h1] at hnodup ⊢
        rw [List.mem_map]
        exact ⟨e, he, hek⟩
      · have hak : a.1 ≠ k := by
          intro hak
          apply hnodup.1
          rw [hak, List.mem_map]
          exact ⟨(k, dv), h1, rfl⟩
        rw [List.filter_cons_of_neg (by simpa using hak)]
        exact ih hnodup.2 h1

theorem filterMap_filter_key (k : String)
    (F : (String × DataValue) → Option Discrepancy) :
    ∀ m : List (String × DataValue),
      (∀ e ∈ m, ∀ d, F e = some d → discKey d = e.1) →
      ((m.filterMap F).filter (fun d => discKey d = k))
        = ((m.filter (fun e => e.1 = k)).filterMap F) := by
  intro m
  induction m with
  | nil =>
      intro _
      simp
  | cons e rest ih =>
      intro hcons
      have hrest : ∀ x ∈ rest, ∀ d, F x = some d → discKey d = x.1 := by
        intro x hx
        exact hcons x (List.mem_cons_of_mem e hx)
      rw [List.filterMap_cons]
      rcases hF : F e with _ | d
      · by_cases hek : e.1 = k
        · rw [List.filter_cons_of_pos (by simpa using hek)]
          rw [List.filterMap_cons, hF]
          exact ih hrest
        · rw [List.filter_cons_of_neg (by simpa using hek)]
          exact ih hrest
      · have hkey : discKey d = e.1 :=
          hcons e (List.mem_cons_self e rest) d hF
        by_cases hek : e.1 = k
        · rw [List.filter_cons_of_pos (by simp [hkey, hek])]
          rw [List.filter_cons_of_pos (by simpa using hek)]
          rw [List.filterMap_cons, hF]
          rw [ih hrest]
        · rw [List.filter_cons_of_neg (by simp [hkey, hek])]
          rw [List.filter_cons_of_neg (by simpa using hek)]
          exact ih hrest

theorem srcPassEntry_key {dst : List (String × DataValue)}
    {e : String × DataValue} (hcons : e.1 = createDataKey e.2) :
    ∀ d, srcPassEntry dst e = some d → discKey d = e.1 := by
  intro d hd
  unfold srcPassEntry at hd
  rcases h : mapLookup dst e.1 with _ | dv
  · rw [h] at hd
    dsimp only at hd
    injection hd with hd2
    rw [← hd2, hcons]
    rfl
  · rw [h] at hd
    dsimp only at hd
    by_cases hv : e.2.value ≠ dv.value
    · rw [if_pos hv] at hd
      injection hd with hd2
      rw [← hd2, hcons]
      rfl
    · rw [if_neg hv] at hd
      exact absurd hd (by simp)

theorem dstPassEntry_key {src : List (String × DataValue)}
    {e : String × DataValue} (hcons : e.1 = createDataKey e.2) :
    ∀ d, dstPassEntry src e = some d → discKey d = e.1 := by
  intro d hd
  unfold dstPassEntry at hd
  by_cases h : (mapLookup src e.1).isSome
  · rw [if_pos h] at hd
    exact absurd hd (by simp)
  · rw [if_neg h] at hd
    injection hd with hd2
    rw [← hd2, hcons]
    rfl

theorem srcPass_length (dst : List (String × DataValue)) :
    ∀ src : List (String × DataValue),
      (src.filterMap (srcPassEntry dst)).length
        = src.countP (fun e => (mapLookup dst e.1).isNone)
          + src.countP (mismatchB dst) := by
  intro src
  induction src with
  | nil => simp
  | cons e rest ih =>
      rw [List.filterMap_cons, List.countP_cons, List.countP_cons]
      rcases h : mapLookup dst e.1 with _ | dv
      · have hs : srcPassEntry dst e = some (missingInDestDisc e.2) := by
          simp [srcPassEntry, h]
        rw [hs]
        simp only [List.length_cons, ih]
        simp [h, mismatchB]
        omega
      · by_cases hv : e.2.value ≠ dv.value
        · have hs : srcPassEntry dst e = some (mismatchDisc e.2 dv) := by
            simp [srcPassEntry, h, hv]
          rw [hs]
          simp only [List.length_cons, ih]
          simp [h, mismatchB, hv]
          omega
        · have hs : srcPassEntry dst e = none := by
            simp [srcPassEntry, h, hv]
          rw [hs]
          simp only [ih]
          simp [h, mismatchB, hv]

theorem dstPass_length (src : List (String × DataValue)) :
    ∀ dst : List (String × DataValue),
      (dst.filterMap (dstPassEntry src)).length
        = dst.countP (fun e => (mapLookup src e.1).isNone) := by
  intro dst
  induction dst with
  | nil => simp
  | cons e rest ih =>
      rw [List.filterMap_cons, List.countP_cons]
      by_cases h : (mapLookup src e.1).isSome
      · have hs : dstPassEntry src e = none := by
          simp [dstPassEntry, h]
        rw [hs]
        simp only [ih]
        simp [Option.isNone_iff_eq_none]
        intro h2
        rw [h2] at h
        simp at h
      · have hs : dstPassEntry src e = some (missingInSourceDisc e.2) := by
          simp [dstPassEntry, h]
        rw [hs]
        simp only [List.length_cons, ih]
        have h1 : ((mapLookup src e.1).isNone : Bool) = true := by
          rcases h2 : mapLookup src e.1 with _ | dv2
          · rfl
          · rw [h2] at h
            simp at h
        simp [h1]

end Validation

namespace Validation

/-- Scenario-S5 source value under key `K1` (value 10, source only). -/
def s5SrcK1 : DataValue := ⟨"K1", "202401", "OU1", none, "10"⟩

/-- Scenario-S5 destination value under key `K3` (value 3, destination only). -/
def s5DstK3 : DataValue := ⟨"K3", "202401", "OU1", none, "3"⟩

end Validation

/-- **C2 counterexample.** The claim says a value mismatch is `critical`
when the destination value is numerically greater than the source value, so
for source 5 and destination 7 the severity would be `critical`.  The code
(validation.ts line 576) classifies by the absolute difference instead: for
source "5" and destination "7" under the same key, the single emitted
discrepancy is a `value_mismatch` of severity `minor`, not `critical`. -/
theorem value_mismatch_severity_cex :
    Validation.performValidationDiff (Validation.buildMap [Validation.s5SrcVal])
        (Validation.buildMap [Validation.s5DstVal])
      = [Validation.mismatchDisc Validation.s5SrcVal Validation.s5DstVal] ∧
    (Validation.mismatchDisc Validation.s5SrcVal Validation.s5DstVal).discrepancyType
      = Validation.DiscrepancyType.value_mismatch ∧
    (Validation.mismatchDisc Validation.s5SrcVal Validation.s5DstVal).severity
      = Validation.Severity.minor ∧
    (Validation.mismatchDisc Validation.s5SrcVal Validation.s5DstVal).severity
      ≠ Validation.Severity.critical := by decide

/-- **C2 (amended).** For every validation run and every key present in
both maps with unequal value strings, exactly one discrepancy carries that
key; it has kind `value_mismatch` and severity given by the absolute
numeric difference of the two values: `critical` when it exceeds 100,
`major` when it exceeds 10, else `minor` (so for source 5 and destination 7
the severity is `minor`). -/
theorem value_mismatch_severity_thresholds
    (srcVals dstVals : List Validation.DataValue)
    (k : String) (sv dv : Validation.DataValue)
    (hs : (k, sv) ∈ Validation.buildMap srcVals)
    (hd : Validation.mapLookup (Validation.buildMap dstVals) k = some dv)
    (hne : sv.value ≠ dv.value) :
    (Validation.performValidationDiff (Validation.buildMap srcVals)
        (Validation.buildMap dstVals)).filter
        (fun d => Validation.discKey d = k)
      = [Validation.mismatchDisc sv dv] ∧
    (Validation.mismatchDisc sv dv).discrepancyType
      = Validation.DiscrepancyType.value_mismatch ∧
    (Validation.mismatchDisc sv dv).severity
      = Validation.mismatchSeverity sv.value dv.value ∧
    (∀ x y : Validation.Dec,
      Validation.parseFloatDec (if sv.value = "" then "0" else sv.value) = some x →
      Validation.parseFloatDec (if dv.value = "" then "0" else dv.value) = some y →
      Validation.mismatchSeverity sv.value dv.value
        = (if (Validation.Dec.abs (Validation.Dec.sub x y)).gtNat 100 then
             Validation.Severity.critical
           else if (Validation.Dec.abs (Validation.Dec.sub x y)).gtNat 10 then
             Validation.Severity.major
           else Validation.Severity.minor)) := by
  have hSc := Validation.buildMap_consistent srcVals
  have hDc := Validation.buildMap_consistent dstVals
  have hSn := Validation.buildMap_keys_nodup srcVals
  have hDn := Validation.buildMap_keys_nodup dstVals
  refine ⟨?_, rfl, rfl, ?_⟩
  · rw [Validation.performValidationDiff, List.filter_append]
    rw [Validation.filterMap_filter_key k _ _
      (fun e he d hdd => Validation.srcPassEntry_key (hSc e he) d hdd)]
    rw [Validation.filterMap_filter_key k _ _
      (fun e he d hdd => Validation.dstPassEntry_key (hDc e he) d hdd)]
    rw [Validation.filter_key_singleton hSn hs]
    have hdD : (k, dv) ∈ Validation.buildMap dstVals :=
      Validation.mapLookup_some_mem hd
    rw [Validation.filter_key_singleton hDn hdD]
    have h1 : Validation.srcPassEntry (Validation.buildMap dstVals) (k, sv)
        = some (Validation.mismatchDisc sv dv) := by
      simp [Validation.srcPassEntry, hd, hne]
    have hsome : (Validation.mapLookup (Validation.buildMap srcVals) k).isSome :=
      Validation.mapLookup_isSome_of_mem hs
    have h2 : Validation.dstPassEntry (Validation.buildMap srcVals) (k, dv)
        = none := by
      simp [Validation.dstPassEntry, hsome]
    simp [List.filterMap_cons, h1, h2]
  · intro x y hx hy
    simp only [Validation.mismatchSeverity, Validation.numericDiff, hx, hy]

/-- Witness for C2 (amended): scenario S5's key `K2` with source 5 and
destination 7 emits exactly its one `value_mismatch` discrepancy. -/
theorem value_mismatch_severity_thresholds_witness :
    (Validation.performValidationDiff (Validation.buildMap [Validation.s5SrcVal])
        (Validation.buildMap [Validation.s5DstVal])).filter
        (fun d => Validation.discKey d = "K2_202401_OU1_default")
      = [Validation.mismatchDisc Validation.s5SrcVal Validation.s5DstVal] :=
  (value_mismatch_severity_thresholds [Validation.s5SrcVal] [Validation.s5DstVal]
      "K2_202401_OU1_default" Validation.s5SrcVal Validation.s5DstVal
      (by decide) (by decide) (by decide)).1

/-- **C3.** Over the two maps built from the fetched values (whose keys are
duplicate-free by construction), each key present only in the source map
yields exactly one discrepancy — of kind `missing_in_destination` and
severity `major`; each key present only in the destination map yields
exactly one discrepancy — of kind `missing_in_source` and severity `minor`;
and the total number of discrepancies equals the size of the symmetric
difference of the key sets plus the number of keys in the intersection
whose value strings differ (the three `countP` terms below, which over the
duplicate-free maps measure exactly those key sets). -/
theorem validation_diff_kinds_and_count
    (srcVals dstVals : List Validation.DataValue) :
    ((Validation.buildMap srcVals).map Prod.fst).Nodup ∧
    ((Validation.buildMap dstVals).map Prod.fst).Nodup ∧
    (∀ k dv, (k, dv) ∈ Validation.buildMap srcVals →
      Validation.mapLookup (Validation.buildMap dstVals) k = none →
      (Validation.performValidationDiff (Validation.buildMap srcVals)
          (Validation.buildMap dstVals)).filter
          (fun d => Validation.discKey d = k)
        = [Validation.missingInDestDisc dv] ∧
      (Validation.missingInDestDisc dv).discrepancyType
        = Validation.DiscrepancyType.missing_in_destination ∧
      (Validation.missingInDestDisc dv).severity = Validation.Severity.major) ∧
    (∀ k dv, (k, dv) ∈ Validation.buildMap dstVals →
      Validation.mapLookup (Validation.buildMap srcVals) k = none →
      (Validation.performValidationDiff (Validation.buildMap srcVals)
          (Validation.buildMap dstVals)).filter
          (fun d => Validation.discKey d = k)
        = [Validation.missingInSourceDisc dv] ∧
      (Validation.missingInSourceDisc dv).discrepancyType
        = Validation.DiscrepancyType.missing_in_source ∧
      (Validation.missingInSourceDisc dv).severity = Validation.Severity.minor) ∧
    (Validation.performValidationDiff (Validation.buildMap srcVals)
        (Validation.buildMap dstVals)).length
      = (Validation.buildMap srcVals).countP
          (fun e => (Validation.mapLookup (Validation.buildMap dstVals) e.1).isNone)
        + (Validation.buildMap dstVals).countP
          (fun e => (Validation.mapLookup (Validation.buildMap srcVals) e.1).isNone)
        + (Validation.buildMap srcVals).countP
          (Validation.mismatchB (Validation.buildMap dstVals)) := by
  have hSc := Validation.buildMap_consistent srcVals
  have hDc := Validation.buildMap_consistent dstVals
  have hSn := Validation.buildMap_keys_nodup srcVals
  have hDn := Validation.buildMap_keys_nodup dstVals
  refine ⟨hSn, hDn, ?_, ?_, ?_⟩
  · intro k dv hmem hlook
    refine ⟨?_, rfl, rfl⟩
    rw [Validation.performValidationDiff, List.filter_append]
    rw [Validation.filterMap_filter_key k _ _
      (fun e he d hdd => Validation.srcPassEntry_key (hSc e he) d hdd)]
    rw [Validation.filterMap_filter_key k _ _
      (fun e he d hdd => Validation.dstPassEntry_key (hDc e he) d hdd)]
    rw [Validation.filter_key_singleton hSn hmem]
    rw [Validation.filter_key_eq_nil
      ((Validation.mapLookup_eq_none_iff _ k).mp hlook)]
    have h1 : Validation.srcPassEntry (Validation.buildMap dstVals) (k, dv)
        = some (Validation.missingInDestDisc dv) := by
      simp [Validation.srcPassEntry, hlook]
    simp [List.filterMap_cons, h1]
  · intro k dv hmem hlook
    refine ⟨?_, rfl, rfl⟩
    rw [Validation.performValidationDiff, List.filter_append]
    rw [Validation.filterMap_filter_key k _ _
      (fun e he d hdd => Validation.srcPassEntry_key (hSc e he) d hdd)]
    rw [Validation.filterMap_filter_key k _ _
      (fun e he d hdd => Validation.dstPassEntry_key (hDc e he) d hdd)]
    rw [Validation.filter_key_eq_nil
      ((Validation.mapLookup_eq_none_iff _ k).mp hlook)]
    rw [Validation.filter_key_singleton hDn hmem]
    have h1 : Validation.dstPassEntry (Validation.buildMap srcVals) (k, dv)
        = some (Validation.missingInSourceDisc dv) := by
      simp [Validation.dstPassEntry, hlook]
    simp [List.filterMap_cons, h1]
  · rw [Validation.performValidationDiff, List.length_append]
    rw [Validation.srcPass_length, Validation.dstPass_length]
    omega

/-- Witness for C3, scenario S5: key `K1` is present only in the source and
yields exactly its one `missing_in_destination`/`major` discrepancy. -/
theorem validation_diff_kinds_and_count_witness :
    (Validation.performValidationDiff
        (Validation.buildMap [Validation.s5SrcK1, Validation.s5SrcVal])
        (Validation.buildMap [Validation.s5DstVal, Validation.s5DstK3])).filter
        (fun d => Validation.discKey d = "K1_202401_OU1_default")
      = [Validation.missingInDestDisc Validation.s5SrcK1] ∧
    (Validation.missingInDestDisc Validation.s5SrcK1).discrepancyType
      = Validation.DiscrepancyType.missing_in_destination ∧
    (Validation.missingInDestDisc Validation.s5SrcK1).severity
      = Validation.Severity.major :=
  (validation_diff_kinds_and_count
      [Validation.s5SrcK1, Validation.s5SrcVal]
      [Validation.s5DstVal, Validation.s5DstK3]).2.2.1
    "K1_202401_OU1_default" Validation.s5SrcK1 (by decide) (by decide)

/-! ## Job-planner period expansion

Embedding of the period computation of `getDimensions`
(`src/unnamed/part_008`, lines 32-52).  The calendar functions
`createFixedPeriodFromPeriodId` and `generateFixedPeriods` come from the
external `@dhis2/multi-calendar-dates` package (ISO 8601 calendar) and are
modelled below for the period types the configurations use; luxon
intervals are represented in month indices, to which all these period
types align exactly, half-open as `[startM, endM)`.
-/

namespace Periods

/-- The DHIS2 period types modelled here. -/
inductive PeriodType where
  | monthly
  | yearly
  | financialJuly
deriving DecidableEq

/-- A fixed period: its DHIS2 identifier and its calendar interval in
month indices (`year * 12 + month - 1`), half-open. -/
structure FixedPeriod where
  id : String
  startM : Int
  endM : Int
deriving DecidableEq

/-- Two-digit month rendering. -/
def month2 (m : Nat) : String :=
  if m < 10 then "0" ++ toString m else toString m

/-- The monthly period `YYYYMM`. -/
def monthPeriod (y : Int) (m : Nat) : FixedPeriod :=
  ⟨toString y ++ month2 m, y * 12 + (m : Int) - 1, y * 12 + (m : Int)⟩

/-- The yearly period `YYYY`. -/
def yearPeriod (y : Int) : FixedPeriod :=
  ⟨toString y, y * 12, y * 12 + 12⟩

/-- The July-to-June financial year `YYYYJuly` (1 July of the year through
30 June of the next). -/
def fyJulyPeriod (y : Int) : FixedPeriod :=
  ⟨toString y ++ "July", y * 12 + 6, y * 12 + 18⟩

/-- Model of `generateFixedPeriods({periodType, year, calendar:"iso8601"})`
from `@dhis2/multi-calendar-dates`: the fixed periods of the given type
generated for one calendar year. -/
def generateFixedPeriods : PeriodType → Int → List FixedPeriod
  | .monthly, y => (List.range 12).map (fun i => monthPeriod y (i + 1))
  | .yearly, y => [yearPeriod y]
  | .financialJuly, y => [fyJulyPeriod y]

/-- Digit-list value (period-id parsing). -/
def digitsToNat (l : List Char) : Nat :=
  l.foldl (fun n c => 10 * n + (c.toNat - 48)) 0

/-- Parse a non-empty all-digit character list. -/
def parseNatDigits (l : List Char) : Option Nat :=
  if l ≠ [] ∧ l.all Char.isDigit then some (digitsToNat l) else none

/-- Model of `createFixedPeriodFromPeriodId({periodId, calendar:"iso8601"})`
from `@dhis2/multi-calendar-dates` for the period-id shapes above:
`YYYYJuly`, `YYYYMM` and `YYYY`. -/
def createFixedPeriodFromPeriodId (pid : String) : Option FixedPeriod :=
  let cs := pid.data
  if "July".data.isSuffixOf cs then
    match parseNatDigits (cs.take (cs.length - 4)) with
    | some y => some (fyJulyPeriod y)
    | none => none
  else if cs.length = 6 then
    match parseNatDigits (cs.take 4), parseNatDigits (cs.drop 4) with
    | some y, some m => if 1 ≤ m ∧ m ≤ 12 then some (monthPeriod y m) else none
    | _, _ => none
  else if cs.length = 4 then
    match parseNatDigits cs with
    | some y => some (yearPeriod y)
    | none => none
  else
    none

/-- Luxon `periodInterval.engulfs(interval)`:
`a.start ≤ b.start` and `b.end ≤ a.end` (non-strict). -/
def engulfs (a b : FixedPeriod) : Bool :=
  decide (a.startM ≤ b.startM ∧ b.endM ≤ a.endM)

/-- `new Date(period.startDate).getFullYear()`: the calendar year a month
index falls in. -/
def startYear (p : FixedPeriod) : Int :=
  Int.fdiv p.startM 12

/-- The period computation of `getDimensions` (`src/unnamed/part_008`
lines 32-52): parse the requested period id, generate the fixed periods of
the configured type for the year of the requested period's start date,
keep those whose interval the requested interval engulfs, return their
ids.  `none` models the exception thrown on an unparseable period id. -/
def expandPeriods (t : PeriodType) (periodId : String) : Option (List String) :=
  (createFixedPeriodFromPeriodId periodId).map (fun period =>
    ((generateFixedPeriods t (startYear period)).filter
      (fun p => engulfs period p)).map (fun p => p.id))

/-- The claim's period set, following the spec's words: a fixed period of
the configured type (generated for any year) whose interval is engulfed by
the requested period's interval. -/
def isClaimedPeriod (t : PeriodType) (req : FixedPeriod) (p : FixedPeriod) : Prop :=
  (∃ y : Int, p ∈ generateFixedPeriods t y) ∧ engulfs req p = true

end Periods

/-- **C8 counterexample.** The claim says the produced set equals the set of
ALL fixed periods of the configured type whose interval is engulfed by the
requested period's interval.  It is false: `getDimensions` only generates
candidates for the calendar year of the requested period's start date, so
for the July-to-June financial year `2023July` with period type `MONTHLY`
the produced set is `202307..202312`, although the monthly period `202401`
(generated for year 2024) is also engulfed by the requested interval. -/
theorem period_expansion_start_year_cex :
    Periods.createFixedPeriodFromPeriodId "2023July"
      = some (Periods.fyJulyPeriod 2023) ∧
    Periods.expandPeriods Periods.PeriodType.monthly "2023July"
      = some ["202307", "202308", "202309", "202310", "202311", "202312"] ∧
    Periods.monthPeriod 2024 1
      ∈ Periods.generateFixedPeriods Periods.PeriodType.monthly 2024 ∧
    Periods.engulfs (Periods.fyJulyPeriod 2023) (Periods.monthPeriod 2024 1)
      = true ∧
    "202401" ∉ (Periods.expandPeriods Periods.PeriodType.monthly
      "2023July").getD [] := by decide

/-- **C8 (amended).** The set of period identifiers produced for a requested
period equals the set of fixed periods of the configured type GENERATED FOR
THE CALENDAR YEAR OF THE REQUESTED PERIOD'S START DATE whose interval is
engulfed by the requested period's interval; every produced identifier is in
particular a fixed period of the type engulfed by the requested interval,
and the expansion is a pure function of `(periodType, periodId)` (same set
for every run with the same inputs). -/
theorem period_expansion_start_year
    (t : Periods.PeriodType) (periodId : String)
    (req : Periods.FixedPeriod) (ps : List String)
    (hreq : Periods.createFixedPeriodFromPeriodId periodId = some req)
    (hps : Periods.expandPeriods t periodId = some ps) :
    (∀ s, s ∈ ps ↔ ∃ fp ∈ Periods.generateFixedPeriods t (Periods.startYear req),
        fp.id = s ∧ Periods.engulfs req fp = true) ∧
    (∀ s ∈ ps, ∃ fp, Periods.isClaimedPeriod t req fp ∧ fp.id = s) := by
  rw [Periods.expandPeriods, hreq, Option.map_some'] at hps
  injection hps with hps2
  subst hps2
  constructor
  · intro s
    rw [List.mem_map]
    constructor
    · rintro ⟨fp, hfp, rfl⟩
      rw [List.mem_filter] at hfp
      exact ⟨fp, hfp.1, rfl, hfp.2⟩
    · rintro ⟨fp, hfp, rfl, heng⟩
      exact ⟨fp, List.mem_filter.mpr ⟨hfp, heng⟩, rfl⟩
  · intro s hs
    rw [List.mem_map] at hs
    obtain ⟨fp, hfp, rfl⟩ := hs
    rw [List.mem_filter] at hfp
    exact ⟨fp, ⟨⟨Periods.startYear req, hfp.1⟩, hfp.2⟩, rfl⟩

/-- Witness for C8 (amended): instantiated at period type `MONTHLY` and
requested period `2023July`, the identifier `202307` is produced because
the monthly period of July 2023 is generated for year 2023 and engulfed. -/
theorem period_expansion_start_year_witness :
    "202307" ∈ ["202307", "202308", "202309", "202310", "202311", "202312"] :=
  ((period_expansion_start_year Periods.PeriodType.monthly "2023July"
      (Periods.fyJulyPeriod 2023)
      ["202307", "202308", "202309", "202310", "202311", "202312"]
      (by decide) (by decide)).1 "202307").mpr
    ⟨Periods.monthPeriod 2023 7, by decide, by decide, by decide⟩
